import Mathlib

/-
Verification of the trivia-bot round/question progression engine.

This file gives a shallow embedding, in Lean 4, of the parts of the code
that the specification talks about:

  * src/game/elimination.py   (EliminationLogic)
  * src/game/engine.py        (GameEngine.start_game, finish_round,
                               check_early_victory)
  * src/game/early_victory.py (EarlyVictoryChecker.check_early_victory)
  * src/tasks/question_sender.py (send_question_to_players, collect_answers)
  * src/tasks/bot_answers.py  (send_next_question)
  * src/tasks/game_tasks.py   (finish_round_task, start_next_round_task)
  * src/database/session.py   (commit-on-normal-exit session semantics)
  * src/bot/game_notifications.py (the displayed_at write)

Database rows become Lean structures, Decimal becomes Rat, Python None
becomes Option, and the side effects of a task become an explicitly returned
new state together with the list of follow-up jobs it enqueues.
Python builtins min and max are modelled by left folds with the CPython
first-maximum-wins tie behaviour, and the TypeError that Python 3 raises
when max compares None with a number is modelled with an Except result.
-/

set_option maxHeartbeats 1000000

/-- Possible Python runtime errors that the embedded functions can raise. -/
inductive PyError where
  | typeError
  | valueError
deriving DecidableEq, Repr

/-- Python max with a key function over the non-empty list h :: t:
later elements replace the current best only when strictly greater, so the
first element with the maximal key wins, exactly as in CPython. -/
def pyMaxBy {α β : Type} [LinearOrder β] (k : α → β) (h : α) (t : List α) : α :=
  t.foldl (fun acc x => if k acc < k x then x else acc) h

/-- Python max with a key that can be None (modelled as Option): any
comparison of None with a number, or of None with None, raises TypeError.
Mirrors max(xs, key=f) where f may return None (Python 3 semantics). -/
def pyMaxByOpt {α : Type} (k : α → Option ℚ) (h : α) (t : List α) :
    Except PyError α :=
  t.foldlM
    (fun acc x =>
      match k x, k acc with
      | some a, some b => Except.ok (if b < a then x else acc)
      | _, _ => Except.error PyError.typeError)
    h

/-- Result of the fold modelling Python min over a list of values with a
start value: the least of the start value and all list elements. -/
theorem foldl_min_le_init {β : Type} [LinearOrder β] (l : List β) (b : β) :
    l.foldl min b ≤ b := by
  induction l generalizing b with
  | nil => simp
  | cons x xs ih =>
    simpa using le_trans (ih (min b x)) (min_le_left b x)

theorem foldl_min_le_mem {β : Type} [LinearOrder β] (l : List β) (b : β) :
    ∀ x ∈ l, l.foldl min b ≤ x := by
  induction l generalizing b with
  | nil => intro x hx; simp at hx
  | cons y ys ih =>
    intro x hx
    rcases List.mem_cons.mp hx with rfl | hx
    · simpa using le_trans (foldl_min_le_init ys (min b x)) (min_le_right b x)
    · simpa using ih (min b y) x hx

theorem foldl_min_eq_init_or_mem {β : Type} [LinearOrder β] (l : List β) (b : β) :
    l.foldl min b = b ∨ l.foldl min b ∈ l := by
  induction l generalizing b with
  | nil => left; rfl
  | cons y ys ih =>
    rcases ih (min b y) with h | h
    · rcases min_choice b y with hm | hm
      · left; simpa [hm] using h
      · right; rw [List.foldl_cons, h, hm]; exact List.mem_cons_self y ys
    · right; exact List.mem_cons_of_mem y h

theorem foldl_max_init_le {β : Type} [LinearOrder β] (l : List β) (b : β) :
    b ≤ l.foldl max b := by
  induction l generalizing b with
  | nil => simp
  | cons x xs ih =>
    simpa using le_trans (le_max_left b x) (ih (max b x))

theorem foldl_max_mem_le {β : Type} [LinearOrder β] (l : List β) (b : β) :
    ∀ x ∈ l, x ≤ l.foldl max b := by
  induction l generalizing b with
  | nil => intro x hx; simp at hx
  | cons y ys ih =>
    intro x hx
    rcases List.mem_cons.mp hx with rfl | hx
    · simpa using le_trans (le_max_right b x) (foldl_max_init_le ys (max b x))
    · simpa using ih (max b y) x hx

theorem foldl_max_eq_init_or_mem {β : Type} [LinearOrder β] (l : List β) (b : β) :
    l.foldl max b = b ∨ l.foldl max b ∈ l := by
  induction l generalizing b with
  | nil => left; rfl
  | cons y ys ih =>
    rcases ih (max b y) with h | h
    · rcases max_choice b y with hm | hm
      · left; simpa [hm] using h
      · right; rw [List.foldl_cons, h, hm]; exact List.mem_cons_self y ys
    · right; exact List.mem_cons_of_mem y h

/-- Result of pyMaxBy is one of the inputs. -/
theorem pyMaxBy_mem {α β : Type} [LinearOrder β] (k : α → β) (h : α) (t : List α) :
    pyMaxBy k h t ∈ h :: t := by
  induction t generalizing h with
  | nil => simp [pyMaxBy]
  | cons y ys ih =>
    have hstep : pyMaxBy k h (y :: ys) = pyMaxBy k (if k h < k y then y else h) ys := rfl
    rw [hstep]
    rcases List.mem_cons.mp (ih (if k h < k y then y else h)) with heq | hmem
    · rw [heq]
      by_cases hc : k h < k y
      · simp [hc]
      · simp [hc]
    · exact List.mem_cons_of_mem h (List.mem_cons_of_mem y hmem)

/-- Result of pyMaxBy has the greatest key among all inputs. -/
theorem pyMaxBy_le {α β : Type} [LinearOrder β] (k : α → β) (h : α) (t : List α) :
    ∀ x ∈ h :: t, k x ≤ k (pyMaxBy k h t) := by
  induction t generalizing h with
  | nil =>
    intro x hx
    have hxh : x = h := by simpa using hx
    simp [hxh, pyMaxBy]
  | cons y ys ih =>
    intro x hx
    have hstep : pyMaxBy k h (y :: ys) = pyMaxBy k (if k h < k y then y else h) ys := rfl
    have hb : k (if k h < k y then y else h)
        ≤ k (pyMaxBy k (if k h < k y then y else h) ys) :=
      ih _ _ (List.mem_cons_self _ _)
    have hh : k h ≤ k (if k h < k y then y else h) := by
      by_cases hc : k h < k y
      · simp only [hc, if_true]; exact le_of_lt hc
      · simp [hc]
    have hy : k y ≤ k (if k h < k y then y else h) := by
      by_cases hc : k h < k y
      · simp [hc]
      · simp only [hc, if_false]; exact le_of_not_lt hc
    rw [hstep]
    rcases List.mem_cons.mp hx with rfl | hx
    · exact le_trans hh hb
    · rcases List.mem_cons.mp hx with rfl | hx
      · exact le_trans hy hb
      · exact ih _ x (List.mem_cons_of_mem _ hx)

/-- In pyMaxByOpt, when every key is defined the fold never raises and
agrees with pyMaxBy run on the unwrapped keys. -/
theorem pyMaxByOpt_all_some {α : Type} (k : α → Option ℚ) (h : α) (t : List α)
    (hall : ∀ x ∈ h :: t, (k x).isSome = true) :
    pyMaxByOpt k h t = Except.ok (pyMaxBy (fun x => (k x).getD 0) h t) := by
  induction t generalizing h with
  | nil => rfl
  | cons y ys ih =>
    have hh : (k h).isSome = true := hall h (List.mem_cons_self h (y :: ys))
    have hy : (k y).isSome = true :=
      hall y (List.mem_cons_of_mem h (List.mem_cons_self y ys))
    rcases Option.isSome_iff_exists.mp hh with ⟨a, ha⟩
    rcases Option.isSome_iff_exists.mp hy with ⟨b, hb⟩
    have hall2 : ∀ x ∈ (if a < b then y else h) :: ys, (k x).isSome = true := by
      intro x hx
      rcases List.mem_cons.mp hx with rfl | hx
      · by_cases hc : a < b
        · simp [hc, hy]
        · simp [hc, hh]
      · exact hall x (List.mem_cons_of_mem h (List.mem_cons_of_mem y hx))
    have step : pyMaxByOpt k h (y :: ys)
        = pyMaxByOpt k (if a < b then y else h) ys := by
      simp only [pyMaxByOpt, List.foldlM_cons, ha, hb]
      rfl
    calc pyMaxByOpt k h (y :: ys)
        = pyMaxByOpt k (if a < b then y else h) ys := step
      _ = Except.ok (pyMaxBy (fun x => (k x).getD 0) (if a < b then y else h) ys) :=
          ih _ hall2
      _ = Except.ok (pyMaxBy (fun x => (k x).getD 0) h (y :: ys)) := by
          congr 1
          simp only [pyMaxBy, List.foldl_cons, ha, hb, Option.getD_some]

/-
ELIMINATION ENGINE (src/game/elimination.py)
-/

/-- Result of one player for a single round, from the PlayerRoundResult dataclass
(src/game/elimination.py lines 11-20).  The answers field of the dataclass
is never consulted by determine_eliminated_player and is omitted. -/
structure PlayerRoundResult where
  user_id : ℕ
  correct_answers : ℕ
  total_time : ℚ
deriving DecidableEq, Repr

/-- Python min(r.correct_answers for r in round_results)
(src/game/elimination.py line 45); the empty case is guarded by the caller
and is given a junk value. -/
def minCorrect : List PlayerRoundResult → ℕ
  | [] => 0
  | h :: t => (t.map (fun r => r.correct_answers)).foldl min h.correct_answers

/-- Candidates for elimination: players with the minimum number of correct
answers (src/game/elimination.py lines 46-49). -/
def candidates_by_score (rs : List PlayerRoundResult) : List PlayerRoundResult :=
  rs.filter (fun r => r.correct_answers == minCorrect rs)

/-- Python max(r.total_time for r in candidates_by_score)
(src/game/elimination.py line 56); junk value on the unreachable empty case. -/
def maxTimeOf : List PlayerRoundResult → ℚ
  | [] => 0
  | h :: t => (t.map (fun r => r.total_time)).foldl max h.total_time

/-- Candidates with the maximum total time among the score-tied group
(src/game/elimination.py lines 57-60). -/
def candidatesOf (rs : List PlayerRoundResult) : List PlayerRoundResult :=
  (candidates_by_score rs).filter
    (fun r => r.total_time == maxTimeOf (candidates_by_score rs))

/-- Check whether all candidates have exactly the same score and time,
from EliminationLogic._all_have_same_score_and_time
(src/game/elimination.py lines 76-89): False for lists of length at most
one, otherwise every element is compared against the first. -/
def allSameScoreAndTime : List PlayerRoundResult → Bool
  | [] => false
  | [_] => false
  | first :: rest =>
    (first :: rest).all
      (fun r => r.correct_answers == first.correct_answers
        && r.total_time == first.total_time)

/-- EliminationLogic.determine_eliminated_player
(src/game/elimination.py lines 30-74).  Returns
(eliminated_user_id, needs_tie_break).  The final match arm with an empty
candidate list models Python max over an empty sequence, which cannot be
reached because the filter always retains the element attaining the
maximum; see candidatesOf_ne_nil below. -/
def determine_eliminated_player (rs : List PlayerRoundResult) :
    Option ℕ × Bool :=
  match rs with
  | [] => (none, false)
  | _ :: _ =>
    let cbs := candidates_by_score rs
    if cbs.length == 1 then (cbs.head?.map (fun r => r.user_id), false)
    else
      let cands := candidatesOf rs
      if cands.length == 1 then (cands.head?.map (fun r => r.user_id), false)
      else if allSameScoreAndTime cands then (none, true)
      else
        match cands with
        | [] => (none, false)
        | c :: cs => (some (pyMaxBy (fun r => r.total_time) c cs).user_id, false)

/-- Lower bound: the Python min over correct answers is below every input. -/
theorem minCorrect_le (h : PlayerRoundResult) (t : List PlayerRoundResult) :
    ∀ x ∈ h :: t, minCorrect (h :: t) ≤ x.correct_answers := by
  intro x hx
  simp only [minCorrect]
  rcases List.mem_cons.mp hx with rfl | hx
  · exact foldl_min_le_init _ _
  · exact foldl_min_le_mem _ _ _ (List.mem_map_of_mem _ hx)

/-- Attainment: the Python min over correct answers is one of the inputs. -/
theorem minCorrect_attained (h : PlayerRoundResult) (t : List PlayerRoundResult) :
    ∃ x ∈ h :: t, x.correct_answers = minCorrect (h :: t) := by
  simp only [minCorrect]
  rcases foldl_min_eq_init_or_mem
      (t.map fun r => r.correct_answers) h.correct_answers with he | hm
  · exact ⟨h, List.mem_cons_self h t, he.symm⟩
  · rcases List.mem_map.mp hm with ⟨x, hx, hfx⟩
    exact ⟨x, List.mem_cons_of_mem h hx, hfx⟩

/-- Upper bound: the Python max over total times is above every input. -/
theorem maxTimeOf_le (h : PlayerRoundResult) (t : List PlayerRoundResult) :
    ∀ x ∈ h :: t, x.total_time ≤ maxTimeOf (h :: t) := by
  intro x hx
  simp only [maxTimeOf]
  rcases List.mem_cons.mp hx with rfl | hx
  · exact foldl_max_init_le _ _
  · exact foldl_max_mem_le _ _ _ (List.mem_map_of_mem _ hx)

/-- Attainment: the Python max over total times is one of the inputs. -/
theorem maxTimeOf_attained (h : PlayerRoundResult) (t : List PlayerRoundResult) :
    ∃ x ∈ h :: t, x.total_time = maxTimeOf (h :: t) := by
  simp only [maxTimeOf]
  rcases foldl_max_eq_init_or_mem
      (t.map fun r => r.total_time) h.total_time with he | hm
  · exact ⟨h, List.mem_cons_self h t, he.symm⟩
  · rcases List.mem_map.mp hm with ⟨x, hx, hfx⟩
    exact ⟨x, List.mem_cons_of_mem h hx, hfx⟩

/-- Extensional reading of step (1) of the algorithm: membership in
candidates_by_score is exactly minimality of the correct count. -/
theorem mem_candidates_by_score_iff (h : PlayerRoundResult)
    (t : List PlayerRoundResult) (r : PlayerRoundResult) :
    r ∈ candidates_by_score (h :: t) ↔
      r ∈ h :: t ∧ ∀ x ∈ h :: t, r.correct_answers ≤ x.correct_answers := by
  constructor
  · intro hr
    rcases List.mem_filter.mp hr with ⟨hmem, hbeq⟩
    have heq : r.correct_answers = minCorrect (h :: t) := by simpa using hbeq
    exact ⟨hmem, fun x hx => heq ▸ minCorrect_le h t x hx⟩
  · rintro ⟨hmem, hmin⟩
    refine List.mem_filter.mpr ⟨hmem, ?_⟩
    rcases minCorrect_attained h t with ⟨m, hm, hme⟩
    have h1 : minCorrect (h :: t) ≤ r.correct_answers := minCorrect_le h t r hmem
    have h2 : r.correct_answers ≤ minCorrect (h :: t) := hme ▸ hmin m hm
    simpa using le_antisymm h2 h1

/-- The score-tied candidate group is never empty for non-empty input. -/
theorem candidates_by_score_ne_nil (h : PlayerRoundResult)
    (t : List PlayerRoundResult) : candidates_by_score (h :: t) ≠ [] := by
  rcases minCorrect_attained h t with ⟨m, hm, hme⟩
  have : m ∈ candidates_by_score (h :: t) :=
    List.mem_filter.mpr ⟨hm, by simpa using hme⟩
  exact List.ne_nil_of_mem this

/-- Extensional reading of step (3): membership in the final candidate list
is exactly membership in the score-tied group together with maximality of
the total time within that group. -/
theorem mem_candidatesOf_iff (h : PlayerRoundResult)
    (t : List PlayerRoundResult) (r : PlayerRoundResult) :
    r ∈ candidatesOf (h :: t) ↔
      r ∈ candidates_by_score (h :: t) ∧
        ∀ x ∈ candidates_by_score (h :: t), x.total_time ≤ r.total_time := by
  rcases List.exists_cons_of_ne_nil (candidates_by_score_ne_nil h t) with ⟨c, cs, hcs⟩
  constructor
  · intro hr
    rcases List.mem_filter.mp hr with ⟨hmem, hbeq⟩
    have heq : r.total_time = maxTimeOf (candidates_by_score (h :: t)) := by
      simpa using hbeq
    refine ⟨hmem, fun x hx => ?_⟩
    rw [heq, hcs]
    exact maxTimeOf_le c cs x (hcs ▸ hx)
  · rintro ⟨hmem, hmax⟩
    refine List.mem_filter.mpr ⟨hmem, ?_⟩
    have hup : r.total_time ≤ maxTimeOf (candidates_by_score (h :: t)) := by
      rw [hcs]; exact maxTimeOf_le c cs r (hcs ▸ hmem)
    have hdown : maxTimeOf (candidates_by_score (h :: t)) ≤ r.total_time := by
      have := maxTimeOf_attained c cs
      rcases this with ⟨m, hm, hme⟩
      rw [← hcs] at hme
      exact hme ▸ hmax m (hcs ▸ hm)
    simpa using le_antisymm hup hdown

/-- The final candidate list is never empty for non-empty input, so the
Python max in the fallback branch can never be asked for an empty list. -/
theorem candidatesOf_ne_nil (h : PlayerRoundResult)
    (t : List PlayerRoundResult) : candidatesOf (h :: t) ≠ [] := by
  rcases List.exists_cons_of_ne_nil (candidates_by_score_ne_nil h t) with ⟨c, cs, hcs⟩
  rcases maxTimeOf_attained c cs with ⟨m, hm, hme⟩
  have : m ∈ candidatesOf (h :: t) := by
    refine List.mem_filter.mpr ⟨hcs ▸ hm, ?_⟩
    rw [hcs]
    simpa using hme
  exact List.ne_nil_of_mem this

/-- Every final candidate carries the group minimum correct count and the
group maximum total time. -/
theorem mem_candidatesOf_facts (rs : List PlayerRoundResult)
    (r : PlayerRoundResult) (hr : r ∈ candidatesOf rs) :
    r.correct_answers = minCorrect rs ∧
      r.total_time = maxTimeOf (candidates_by_score rs) := by
  rcases List.mem_filter.mp hr with ⟨hr1, hr2⟩
  rcases List.mem_filter.mp hr1 with ⟨_, hmin⟩
  exact ⟨by simpa using hmin, by simpa using hr2⟩

/-- When at least two candidates survive both filters they all agree on
score and time, so _all_have_same_score_and_time answers True. -/
theorem allSame_of_candidatesOf (h : PlayerRoundResult)
    (t : List PlayerRoundResult)
    (hlen : 2 ≤ (candidatesOf (h :: t)).length) :
    allSameScoreAndTime (candidatesOf (h :: t)) = true := by
  rcases hc : candidatesOf (h :: t) with _ | ⟨a, rest⟩
  · rw [hc] at hlen; simp at hlen
  · rcases rest with _ | ⟨b, l⟩
    · rw [hc] at hlen; simp at hlen
    · have hfacts : ∀ r ∈ candidatesOf (h :: t),
          r.correct_answers = minCorrect (h :: t) ∧
            r.total_time = maxTimeOf (candidates_by_score (h :: t)) :=
        fun r hr => mem_candidatesOf_facts (h :: t) r hr
      rw [hc] at hfacts
      have ha := hfacts a (List.mem_cons_self a (b :: l))
      simp only [allSameScoreAndTime, List.all_eq_true]
      intro r hr
      have hrf := hfacts r hr
      have h1 : r.correct_answers = a.correct_answers := by
        rw [hrf.1, ha.1]
      have h2 : r.total_time = a.total_time := by
        rw [hrf.2, ha.2]
      simp [h1, h2]

/-- Claim C1.  determine_eliminated_player follows the six-step algorithm
of spec section 4.2: (steps 1,3) the two candidate filters select exactly
the minimum-correct-count competitors and, among those, the maximum-time
competitors; (step 2) a unique minimum scorer is eliminated with no
tie-break; (step 4) a unique slowest candidate among the score-tied group
is eliminated; (step 5) when the remaining candidates all share score and
time the function signals tie-break required with no elimination;
(step 6) otherwise the slowest remaining candidate is eliminated; and the
two concrete examples of spec section 8 evaluate as stated:
counts [3,3,5] with times [10,12,8] eliminate the competitor with count 3
and time 12, and counts [4,4,4] with times [9,9,9] yield tie-break
required with no elimination. -/
theorem elimination_follows_spec_steps :
    (∀ (h : PlayerRoundResult) (t : List PlayerRoundResult) (r : PlayerRoundResult),
        r ∈ candidates_by_score (h :: t) ↔
          r ∈ h :: t ∧ ∀ x ∈ h :: t, r.correct_answers ≤ x.correct_answers)
    ∧ (∀ (h : PlayerRoundResult) (t : List PlayerRoundResult) (r : PlayerRoundResult),
        r ∈ candidatesOf (h :: t) ↔
          r ∈ candidates_by_score (h :: t) ∧
            ∀ x ∈ candidates_by_score (h :: t), x.total_time ≤ r.total_time)
    ∧ (∀ (h : PlayerRoundResult) (t : List PlayerRoundResult) (c : PlayerRoundResult),
        candidates_by_score (h :: t) = [c] →
          determine_eliminated_player (h :: t) = (some c.user_id, false))
    ∧ (∀ (h : PlayerRoundResult) (t : List PlayerRoundResult) (c : PlayerRoundResult),
        candidatesOf (h :: t) = [c] →
          determine_eliminated_player (h :: t) = (some c.user_id, false))
    ∧ (∀ (h : PlayerRoundResult) (t : List PlayerRoundResult),
        2 ≤ (candidatesOf (h :: t)).length →
          determine_eliminated_player (h :: t) = (none, true))
    ∧ (∀ (h : PlayerRoundResult) (t : List PlayerRoundResult)
          (c : PlayerRoundResult) (cs : List PlayerRoundResult),
        (candidates_by_score (h :: t)).length ≠ 1 →
        (candidatesOf (h :: t)).length ≠ 1 →
        allSameScoreAndTime (candidatesOf (h :: t)) = false →
        candidatesOf (h :: t) = c :: cs →
          determine_eliminated_player (h :: t)
            = (some (pyMaxBy (fun r => r.total_time) c cs).user_id, false))
    ∧ determine_eliminated_player
        [⟨1, 3, 10⟩, ⟨2, 3, 12⟩, ⟨3, 5, 8⟩] = (some 2, false)
    ∧ determine_eliminated_player
        [⟨1, 4, 9⟩, ⟨2, 4, 9⟩, ⟨3, 4, 9⟩] = (none, true) := by
  refine ⟨mem_candidates_by_score_iff, mem_candidatesOf_iff, ?_, ?_, ?_, ?_, ?_, ?_⟩
  · intro h t c hcbs
    simp [determine_eliminated_player, hcbs]
  · intro h t c hcands
    by_cases hone : (candidates_by_score (h :: t)).length = 1
    · rcases List.length_eq_one.mp hone with ⟨b, hb⟩
      have hcb : c = b := by
        have : c ∈ candidates_by_score (h :: t) :=
          List.mem_filter.mp (hcands ▸ List.mem_cons_self c []) |>.1
        rw [hb] at this
        simpa using this
      simp [determine_eliminated_player, hb, hcb]
    · simp [determine_eliminated_player, hone, hcands]
  · intro h t hlen
    have hone : (candidates_by_score (h :: t)).length ≠ 1 := by
      intro hcon
      have hle : (candidatesOf (h :: t)).length
          ≤ (candidates_by_score (h :: t)).length :=
        List.length_filter_le _ _
      omega
    have hcone : (candidatesOf (h :: t)).length ≠ 1 := by omega
    have hsame := allSame_of_candidatesOf h t hlen
    simp [determine_eliminated_player, hone, hcone, hsame]
  · intro h t c cs hone hcone hsame hcands
    have hcs : cs ≠ [] := by
      intro hnil
      rw [hcands, hnil] at hcone
      simp at hcone
    rw [hcands] at hsame
    simp [determine_eliminated_player, hone, hcone, hsame, hcands, hcs]
  · decide
  · decide

/-- Witness for C1: a concrete input with a unique minimum scorer, run
through the unique-minimum conjunct of the theorem. -/
theorem elimination_follows_spec_steps_witness :
    determine_eliminated_player
      [⟨1, 1, 5⟩, ⟨2, 3, 4⟩] = (some 1, false) :=
  elimination_follows_spec_steps.2.2.1 ⟨1, 1, 5⟩ [⟨2, 3, 4⟩] ⟨1, 1, 5⟩ (by decide)

/-- Claim C10.  The step-(6) fallback branch of
determine_eliminated_player is unreachable: whenever at least two
candidates survive both filters, every one of them carries the group
minimum correct count and the group maximum time, _all_have_same_score_and_time
answers True, and the function returns tie-break required rather than
falling through to the eliminate-the-slowest fallback. -/
theorem elimination_fallback_unreachable :
    ∀ (h : PlayerRoundResult) (t : List PlayerRoundResult),
      2 ≤ (candidatesOf (h :: t)).length →
        (∀ r ∈ candidatesOf (h :: t),
            r.correct_answers = minCorrect (h :: t) ∧
              r.total_time = maxTimeOf (candidates_by_score (h :: t)))
        ∧ allSameScoreAndTime (candidatesOf (h :: t)) = true
        ∧ determine_eliminated_player (h :: t) = (none, true) := by
  intro h t hlen
  refine ⟨fun r hr => mem_candidatesOf_facts (h :: t) r hr,
    allSame_of_candidatesOf h t hlen, ?_⟩
  have hone : (candidates_by_score (h :: t)).length ≠ 1 := by
    intro hcon
    have hle : (candidatesOf (h :: t)).length
        ≤ (candidates_by_score (h :: t)).length :=
      List.length_filter_le _ _
    omega
  have hcone : (candidatesOf (h :: t)).length ≠ 1 := by omega
  have hsame := allSame_of_candidatesOf h t hlen
  simp [determine_eliminated_player, hone, hcone, hsame]

/-- Witness for C10 at a completely tied pair of competitors. -/
theorem elimination_fallback_unreachable_witness :
    allSameScoreAndTime (candidatesOf [⟨1, 3, 9⟩, ⟨2, 3, 9⟩]) = true
    ∧ determine_eliminated_player [⟨1, 3, 9⟩, ⟨2, 3, 9⟩] = (none, true) :=
  ⟨(elimination_fallback_unreachable ⟨1, 3, 9⟩ [⟨2, 3, 9⟩] (by decide)).2.1,
   (elimination_fallback_unreachable ⟨1, 3, 9⟩ [⟨2, 3, 9⟩] (by decide)).2.2⟩

/-- One entry of the tie_break_results argument of
EliminationLogic.determine_tie_break_eliminated
(src/game/elimination.py lines 91-107): user_id, is_correct, answer_time
(None when the competitor did not answer, as the docstring states) and
time_limit. -/
structure TieBreakResult where
  user_id : ℕ
  is_correct : Bool
  answer_time : Option ℚ
  time_limit : ℕ
deriving DecidableEq, Repr

/-- Substitution step of the partition loop
(src/game/elimination.py lines 117-126): a missing answer_time becomes the
full time limit and the answer is forced incorrect.  Yields
(user_id, answer_time, is_correct). -/
def tbEntry (timeLimit : ℕ) (r : TieBreakResult) : ℕ × ℚ × Bool :=
  match r.answer_time with
  | none => (r.user_id, (timeLimit : ℚ), false)
  | some t2 => (r.user_id, t2, r.is_correct)

/-- Competitors classified as having answered correctly, with their
substituted times (src/game/elimination.py lines 127-131). -/
def correctPlayers (timeLimit : ℕ) (rs : List TieBreakResult) : List (ℕ × ℚ) :=
  ((rs.map (tbEntry timeLimit)).filter (fun e => e.2.2)).map (fun e => (e.1, e.2.1))

/-- Competitors classified as having answered wrongly or not at all, with
their substituted times (src/game/elimination.py lines 132-136). -/
def wrongPlayers (timeLimit : ℕ) (rs : List TieBreakResult) : List (ℕ × ℚ) :=
  ((rs.map (tbEntry timeLimit)).filter (fun e => !e.2.2)).map (fun e => (e.1, e.2.1))

/-- EliminationLogic.determine_tie_break_eliminated
(src/game/elimination.py lines 91-157).  An empty input raises ValueError
(line 109).  In Case A (nobody correct, line 141) and in the Case B
fallback (line 151) the code runs Python max over the ORIGINAL result
dicts with key r.get of answer_time, which returns the stored value — None
included, since the key is present — so a None time in those branches
makes max compare None with a number and raise TypeError; this is
pyMaxByOpt.  (The time_limit default of the .get call is dead in this
model because the docstring fixes the key to be present.) -/
def determine_tie_break_eliminated (rs : List TieBreakResult) :
    Except PyError ℕ :=
  match rs with
  | [] => Except.error PyError.valueError
  | first :: rest =>
    let time_limit := first.time_limit
    match correctPlayers time_limit (first :: rest),
        wrongPlayers time_limit (first :: rest) with
    | [], _ =>
      (pyMaxByOpt (fun r => r.answer_time) first rest).map (fun r => r.user_id)
    | [_], w :: ws => Except.ok (pyMaxBy (fun e => e.2) w ws).1
    | [_], [] =>
      (pyMaxByOpt (fun r => r.answer_time) first rest).map (fun r => r.user_id)
    | c1 :: c2 :: cs, _ => Except.ok (pyMaxBy (fun e => e.2) c1 (c2 :: cs)).1

/-- Counterexample to claim C2.  First: with a single competitor who
answered correctly, the Case B fallback returns that very competitor, so
the sole correct answerer IS the one returned, contradicting the claim
that the unique correct answerer is never returned.  Second: with nobody
correct and one unanswered competitor, the claimed behaviour would return
competitor 1 (full limit 20 beats time 3), but the code raises TypeError
because Python max compares None with a number. -/
theorem tie_break_counterexample :
    determine_tie_break_eliminated [⟨1, true, some 5, 20⟩] = Except.ok 1
    ∧ determine_tie_break_eliminated
        [⟨1, false, none, 20⟩, ⟨2, false, some 3, 20⟩]
        = Except.error PyError.typeError := by
  constructor
  · rfl
  · rfl

/-- Claim C2, amended.  With a missing answer_time treated as incorrect
with the full time limit during partitioning: if nobody answered correctly
and every competitor has a recorded time, the competitor with the maximum
time is returned; if exactly one answered correctly and at least one other
competitor exists, the slowest of the others is returned — never the
correct one when user ids are distinct; if two or more answered correctly,
the slowest among the correct answerers is returned, so an incorrect
answer never beats a correct one; and the example {A correct 5,
B incorrect 3, C incorrect 4} eliminates C.  (With a sole correct
answerer and nobody else, that answerer is returned; with nobody correct
and an unrecorded time, TypeError is raised — see the counterexample.) -/
theorem tie_break_amended :
    (∀ (first : TieBreakResult) (rest : List TieBreakResult),
        correctPlayers first.time_limit (first :: rest) = [] →
        (∀ r ∈ first :: rest, (r.answer_time).isSome = true) →
        determine_tie_break_eliminated (first :: rest)
            = Except.ok (pyMaxBy (fun r => (r.answer_time).getD 0) first rest).user_id
          ∧ pyMaxBy (fun r => (r.answer_time).getD 0) first rest ∈ first :: rest
          ∧ ∀ r ∈ first :: rest, (r.answer_time).getD 0
              ≤ ((pyMaxBy (fun r => (r.answer_time).getD 0) first rest).answer_time).getD 0)
    ∧ (∀ (first : TieBreakResult) (rest : List TieBreakResult) (c w : ℕ × ℚ)
          (ws : List (ℕ × ℚ)),
        correctPlayers first.time_limit (first :: rest) = [c] →
        wrongPlayers first.time_limit (first :: rest) = w :: ws →
        determine_tie_break_eliminated (first :: rest)
            = Except.ok (pyMaxBy (fun e => e.2) w ws).1
          ∧ pyMaxBy (fun e => e.2) w ws ∈ w :: ws
          ∧ (∀ e ∈ w :: ws, e.2 ≤ (pyMaxBy (fun e => e.2) w ws).2)
          ∧ ((∀ e ∈ w :: ws, e.1 ≠ c.1) →
              determine_tie_break_eliminated (first :: rest) ≠ Except.ok c.1))
    ∧ (∀ (first : TieBreakResult) (rest : List TieBreakResult) (c1 c2 : ℕ × ℚ)
          (cs : List (ℕ × ℚ)),
        correctPlayers first.time_limit (first :: rest) = c1 :: c2 :: cs →
        determine_tie_break_eliminated (first :: rest)
            = Except.ok (pyMaxBy (fun e => e.2) c1 (c2 :: cs)).1
          ∧ pyMaxBy (fun e => e.2) c1 (c2 :: cs) ∈ c1 :: c2 :: cs
          ∧ ∀ e ∈ c1 :: c2 :: cs, e.2 ≤ (pyMaxBy (fun e => e.2) c1 (c2 :: cs)).2)
    ∧ determine_tie_break_eliminated
        [⟨1, true, some 5, 30⟩, ⟨2, false, some 3, 30⟩, ⟨3, false, some 4, 30⟩]
        = Except.ok 3 := by
  refine ⟨?_, ?_, ?_, by rfl⟩
  · intro first rest hc hall
    refine ⟨?_, pyMaxBy_mem _ first rest, pyMaxBy_le _ first rest⟩
    simp only [determine_tie_break_eliminated, hc]
    rw [pyMaxByOpt_all_some (fun r => r.answer_time) first rest hall]
    rfl
  · intro first rest c w ws hc hw
    have hmain : determine_tie_break_eliminated (first :: rest)
        = Except.ok (pyMaxBy (fun e => e.2) w ws).1 := by
      simp only [determine_tie_break_eliminated, hc, hw]
    refine ⟨hmain, pyMaxBy_mem _ w ws, pyMaxBy_le _ w ws, ?_⟩
    intro hne hcon
    rw [hmain] at hcon
    have hid : (pyMaxBy (fun e => e.2) w ws).1 = c.1 := by
      simpa using hcon
    exact hne (pyMaxBy (fun e => e.2) w ws) (pyMaxBy_mem _ w ws) hid
  · intro first rest c1 c2 cs hc
    have hmain : determine_tie_break_eliminated (first :: rest)
        = Except.ok (pyMaxBy (fun e => e.2) c1 (c2 :: cs)).1 := by
      simp only [determine_tie_break_eliminated, hc]
    exact ⟨hmain, pyMaxBy_mem _ c1 (c2 :: cs), pyMaxBy_le _ c1 (c2 :: cs)⟩

/-- Witness for C2 at a tie-break with one correct answerer and two
wrong ones, run through the exactly-one-correct conjunct. -/
theorem tie_break_amended_witness :
    determine_tie_break_eliminated
      [⟨1, true, some 5, 30⟩, ⟨2, false, some 3, 30⟩, ⟨3, false, some 4, 30⟩]
      = Except.ok (pyMaxBy (fun e => e.2) (2, (3 : ℚ)) [(3, (4 : ℚ))]).1 :=
  (tie_break_amended.2.1 ⟨1, true, some 5, 30⟩
    [⟨2, false, some 3, 30⟩, ⟨3, false, some 4, 30⟩]
    (1, (5 : ℚ)) (2, (3 : ℚ)) [(3, (4 : ℚ))] (by decide) (by decide)).1

/-
EARLY-VICTORY EVALUATOR (src/game/engine.py lines 366-465 and
src/game/early_victory.py lines 17-129; the two implementations perform
the same queries and arithmetic).
-/

/-- One GamePlayer row as far as the early-victory check reads it. -/
structure GamePlayerRec where
  user_id : ℕ
  is_eliminated : Bool
deriving DecidableEq, Repr

/-- One Answer row of the round under consideration, as far as the
early-victory check reads it. -/
structure AnswerRec where
  user_id : ℕ
  round_question_id : ℕ
  is_correct : Bool
deriving DecidableEq, Repr

/-- State read by check_early_victory: the game players, the Answer rows
of the round, the RoundQuestion count of the round, the round number and
the configured ROUNDS_PER_GAME. -/
structure EVState where
  players : List GamePlayerRec
  answers : List AnswerRec
  totalQuestions : ℕ
  roundNumber : ℕ
  roundsPerGame : ℕ
deriving DecidableEq, Repr

/-- Players with is_eliminated unset (src/game/engine.py lines 396-399). -/
def alivePlayers (s : EVState) : List GamePlayerRec :=
  s.players.filter (fun gp => !gp.is_eliminated)

/-- Correct-answer count of one finalist in the round: the Answer rows of
that user, then the count of those marked correct
(src/game/engine.py lines 413-419). -/
def correctCount (s : EVState) (uid : ℕ) : ℕ :=
  ((s.answers.filter (fun a => a.user_id == uid)).filter
    (fun a => a.is_correct)).length

/-- Union of the round_question_ids answered by the two finalists, in
query order (src/game/engine.py lines 446-452); the set is modelled by
dedup of the concatenation. -/
def answeredIds (s : EVState) (u0 u1 : ℕ) : List ℕ :=
  ((s.answers.filter (fun a => a.user_id == u0))
    ++ (s.answers.filter (fun a => a.user_id == u1))).map
      (fun a => a.round_question_id)

/-- questions_remaining = total_questions - len(answered_question_ids)
(src/game/engine.py line 454), a Python int, so an integer in the model. -/
def questionsRemaining (s : EVState) (u0 u1 : ℕ) : ℤ :=
  (s.totalQuestions : ℤ) - ((answeredIds s u0 u1).dedup.length : ℤ)

/-- GameEngine.check_early_victory (src/game/engine.py lines 366-465):
gate on exactly two alive players, gate on the final round number,
leader/loser comparison with equal scores giving no victory, and the
firing test s_loser + q_remaining < s_leader.  The two finalists appear
in roster order, matching finalist_results built from alive_players. -/
def check_early_victory (s : EVState) : Option ℕ :=
  if (alivePlayers s).length ≠ 2 then none
  else if s.roundNumber ≠ s.roundsPerGame then none
  else
    match (alivePlayers s).map (fun gp => (gp.user_id, correctCount s gp.user_id)) with
    | [f0, f1] =>
      if f1.2 < f0.2 then
        if (f1.2 : ℤ) + questionsRemaining s f0.1 f1.1 < (f0.2 : ℤ)
        then some f0.1 else none
      else if f0.2 < f1.2 then
        if (f0.2 : ℤ) + questionsRemaining s f0.1 f1.1 < (f1.2 : ℤ)
        then some f1.1 else none
      else none
    | _ => none

/-- Spec example state: 10 question-instances, leader (user 1) on 6
correct, trailer (user 2) on 2 correct, 3 distinct instances answered.
Answer rows repeat round_question_ids so that the correct counts and the
distinct-instance count match the numbers of the spec example; the
function under test counts rows and dedups ids exactly as the queries do. -/
def evExampleA : EVState where
  players := [⟨1, false⟩, ⟨2, false⟩]
  answers := [⟨1, 1, true⟩, ⟨1, 1, true⟩, ⟨1, 2, true⟩, ⟨1, 2, true⟩,
    ⟨1, 3, true⟩, ⟨1, 3, true⟩, ⟨2, 1, true⟩, ⟨2, 2, true⟩]
  totalQuestions := 10
  roundNumber := 9
  roundsPerGame := 9

/-- Spec example state: leader reaches 8 correct with trailer on 2 and 5
distinct instances answered, so 5 remain and 2 + 5 < 8 fires. -/
def evExampleB : EVState where
  players := [⟨1, false⟩, ⟨2, false⟩]
  answers := [⟨1, 1, true⟩, ⟨1, 1, true⟩, ⟨1, 2, true⟩, ⟨1, 2, true⟩,
    ⟨1, 3, true⟩, ⟨1, 3, true⟩, ⟨1, 4, true⟩, ⟨1, 4, true⟩,
    ⟨2, 4, true⟩, ⟨2, 5, true⟩]
  totalQuestions := 10
  roundNumber := 9
  roundsPerGame := 9

/-- Small state for the witness: one question, leader 1 correct,
trailer 0 correct, everything answered. -/
def evWitnessState : EVState where
  players := [⟨1, false⟩, ⟨2, false⟩]
  answers := [⟨1, 1, true⟩]
  totalQuestions := 1
  roundNumber := 9
  roundsPerGame := 9

/-- Claim C3.  check_early_victory returns a winner only with exactly two
alive players in the configured final round; equal correct counts give no
winner; with distinct counts the leader is returned exactly when
trailer.correct + Q < leader.correct where Q is the total
question-instance count minus the distinct instances answered by either
finalist; and the two spec examples evaluate as stated. -/
theorem early_victory_follows_spec :
    (∀ (s : EVState) (u : ℕ), check_early_victory s = some u →
        (alivePlayers s).length = 2 ∧ s.roundNumber = s.roundsPerGame)
    ∧ (∀ (s : EVState) (p0 p1 : GamePlayerRec), alivePlayers s = [p0, p1] →
        correctCount s p0.user_id = correctCount s p1.user_id →
        check_early_victory s = none)
    ∧ (∀ (s : EVState) (p0 p1 : GamePlayerRec), alivePlayers s = [p0, p1] →
        s.roundNumber = s.roundsPerGame →
        correctCount s p1.user_id < correctCount s p0.user_id →
        check_early_victory s =
          (if (correctCount s p1.user_id : ℤ)
              + questionsRemaining s p0.user_id p1.user_id
              < (correctCount s p0.user_id : ℤ)
           then some p0.user_id else none))
    ∧ (∀ (s : EVState) (p0 p1 : GamePlayerRec), alivePlayers s = [p0, p1] →
        s.roundNumber = s.roundsPerGame →
        correctCount s p0.user_id < correctCount s p1.user_id →
        check_early_victory s =
          (if (correctCount s p0.user_id : ℤ)
              + questionsRemaining s p0.user_id p1.user_id
              < (correctCount s p1.user_id : ℤ)
           then some p1.user_id else none))
    ∧ check_early_victory evExampleA = none
    ∧ check_early_victory evExampleB = some 1 := by
  refine ⟨?_, ?_, ?_, ?_, by decide, by decide⟩
  · intro s u h
    simp only [check_early_victory] at h
    by_cases h2 : (alivePlayers s).length = 2
    · by_cases h3 : s.roundNumber = s.roundsPerGame
      · exact ⟨h2, h3⟩
      · simp [h2, h3] at h
    · simp [h2] at h
  · intro s p0 p1 halive heq
    by_cases h3 : s.roundNumber = s.roundsPerGame
    · simp [check_early_victory, halive, heq, h3]
    · simp [check_early_victory, halive, h3]
  · intro s p0 p1 halive h3 hlt
    simp [check_early_victory, halive, h3, hlt]
  · intro s p0 p1 halive h3 hlt
    have hnl : ¬ correctCount s p1.user_id < correctCount s p0.user_id :=
      not_lt_of_gt hlt
    simp [check_early_victory, halive, h3, hlt, hnl]

/-- Witness for C3, applying the leader-ahead conjunct to a concrete
state where the victory condition holds. -/
theorem early_victory_follows_spec_witness :
    check_early_victory evWitnessState = some 1 := by
  have h := early_victory_follows_spec.2.2.1 evWitnessState
    ⟨1, false⟩ ⟨2, false⟩ (by decide) (by decide) (by decide)
  rw [h]
  decide

/-
ROUND/QUESTION SCHEDULER JOBS
-/

/-- Follow-up jobs that the scheduler tasks enqueue on the Celery queue.
Question-level jobs carry the question_number of their target instance;
round-level jobs carry a round number. -/
inductive Job where
  | broadcastJob (questionNumber : ℕ)
  | botAnswersJob (questionNumber : ℕ)
  | collectJob (questionNumber : ℕ)
  | snqJob (questionNumber : ℕ)
  | finishRoundJob (roundNumber : ℕ)
  | startNextRoundJob (roundNumber : ℕ)
  | finishGameJob
deriving DecidableEq, Repr

/-- Game.status values (src/database models; spec section 3). -/
inductive GameStatus where
  | waiting
  | pre_start
  | in_progress
  | cancelled
  | finished
deriving DecidableEq, Repr

/-- Round.status values. -/
inductive RoundStatus where
  | not_started
  | in_progress
  | finished
deriving DecidableEq, Repr

/-- One RoundQuestion row as the scheduler reads it: its question_number
and its displayed_at timestamp (a clock value; none means never set). -/
structure QuestionRec where
  number : ℕ
  displayed_at : Option ℕ
deriving DecidableEq, Repr

/-- The Round row as send_next_question reads it. -/
structure RoundRec where
  roundNumber : ℕ
  status : RoundStatus
deriving DecidableEq, Repr

/-- State read by send_next_question (src/tasks/bot_answers.py lines
182-322): whether the non-blocking row lock is free, the Round row, the
Game status and the RoundQuestion rows of the round. -/
structure SNQState where
  lockFree : Bool
  round : Option RoundRec
  gameStatus : Option GameStatus
  questions : List QuestionRec
deriving DecidableEq, Repr

/-- Python max over a list of naturals, none on the empty list. -/
def listMaxNat : List ℕ → Option ℕ
  | [] => none
  | n :: ns => some (ns.foldl max n)

/-- Highest question_number whose displayed_at is set: the query ordered
by question_number descending, first row
(src/tasks/bot_answers.py lines 247-250). -/
def lastDisplayedNumber (qs : List QuestionRec) : Option ℕ :=
  listMaxNat ((qs.filter (fun q => q.displayed_at.isSome)).map (fun q => q.number))

/-- Tail of send_next_question past the high-water-mark guard
(src/tasks/bot_answers.py lines 275-316): missing next question means the
round is complete and finish_round_task is enqueued; an already-displayed
next question means a duplicate and nothing is enqueued; otherwise the
broadcast for the next question and its bot-answer job are enqueued. -/
def snqAdvance (st : SNQState) (rd : RoundRec) (nextNumber : ℕ) : List Job :=
  match st.questions.find? (fun q => q.number == nextNumber) with
  | none => [Job.finishRoundJob rd.roundNumber]
  | some nq =>
    if nq.displayed_at.isSome then []
    else [Job.broadcastJob nextNumber, Job.botAnswersJob nextNumber]

/-- send_next_question (src/tasks/bot_answers.py lines 182-322) as a
function from the state it reads to the list of jobs it enqueues; the
task itself writes nothing.  In order: failed non-blocking lock, missing
round, round not in_progress, game missing or not in_progress, missing
current question — each exits with nothing enqueued.  Then the
duplicate/out-of-order guard: when the last displayed question_number is
at least current + 1 the task discards itself.  The sequence-gap check of
lines 265-273 only logs a warning and continues, so it does not appear
in the result. -/
def send_next_question (st : SNQState) (currentQuestionNumber : ℕ) : List Job :=
  if !st.lockFree then []
  else match st.round with
  | none => []
  | some rd =>
    if rd.status ≠ RoundStatus.in_progress then []
    else if st.gameStatus ≠ some GameStatus.in_progress then []
    else match st.questions.find? (fun q => q.number == currentQuestionNumber) with
    | none => []
    | some _ =>
      match lastDisplayedNumber st.questions with
      | some ld =>
        if currentQuestionNumber + 1 ≤ ld then []
        else snqAdvance st rd (currentQuestionNumber + 1)
      | none => snqAdvance st rd (currentQuestionNumber + 1)

/-- Any member of a natural list is bounded by its listMaxNat. -/
theorem le_of_mem_listMaxNat (l : List ℕ) (x : ℕ) (hx : x ∈ l) :
    ∃ m, listMaxNat l = some m ∧ x ≤ m := by
  cases l with
  | nil => simp at hx
  | cons n ns =>
    refine ⟨ns.foldl max n, rfl, ?_⟩
    rcases List.mem_cons.mp hx with rfl | hx
    · exact foldl_max_init_le ns x
    · exact foldl_max_mem_le ns n x hx

/-- A displayed question bounds the high-water mark from below. -/
theorem lastDisplayed_ge (qs : List QuestionRec) (q : QuestionRec)
    (hq : q ∈ qs) (hd : q.displayed_at.isSome = true) :
    ∃ m, lastDisplayedNumber qs = some m ∧ q.number ≤ m := by
  have hmem : q.number
      ∈ (qs.filter (fun q => q.displayed_at.isSome)).map (fun q => q.number) :=
    List.mem_map_of_mem _ (List.mem_filter.mpr ⟨hq, hd⟩)
  exact le_of_mem_listMaxNat _ _ hmem

/-- A broadcast or bot-answer job in the output of snqAdvance always
targets exactly the requested next question number. -/
theorem snqAdvance_mem (st : SNQState) (rd : RoundRec) (nn n : ℕ)
    (hmem : Job.broadcastJob n ∈ snqAdvance st rd nn
      ∨ Job.botAnswersJob n ∈ snqAdvance st rd nn) :
    n = nn := by
  cases hfa : st.questions.find? (fun q => q.number == nn) with
  | none => simp [snqAdvance, hfa] at hmem
  | some nq =>
    by_cases hds : nq.displayed_at.isSome = true
    · simp [snqAdvance, hfa, hds] at hmem
    · simp [snqAdvance, hfa, hds] at hmem
      exact hmem

/-- Claim C4, amended.  First conjunct: whenever the highest displayed
question_number is at least current + 1, send_next_question enqueues
nothing — no broadcast, no bot-answer job, nothing else.  Second
conjunct: any broadcast send_next_question does enqueue targets exactly
question current + 1, a number strictly above the high-water mark, whose
instance is nowhere displayed — so this task never re-broadcasts an
instance at or below the high-water mark.  Third conjunct: the same
target for the bot-answer job.  (The further system-wide consequence
claimed by the spec fails under duplicated broadcast jobs; see
question_progression_counterexample.) -/
theorem send_next_question_guard :
    (∀ (st : SNQState) (cur ld : ℕ),
        lastDisplayedNumber st.questions = some ld → cur + 1 ≤ ld →
        send_next_question st cur = [])
    ∧ (∀ (st : SNQState) (cur n : ℕ),
        Job.broadcastJob n ∈ send_next_question st cur →
          n = cur + 1
          ∧ (∀ ld, lastDisplayedNumber st.questions = some ld → ld < n)
          ∧ (∀ q ∈ st.questions, q.number = n → q.displayed_at = none))
    ∧ (∀ (st : SNQState) (cur n : ℕ),
        Job.botAnswersJob n ∈ send_next_question st cur → n = cur + 1) := by
  have hpath : ∀ (st : SNQState) (cur n : ℕ),
      (Job.broadcastJob n ∈ send_next_question st cur
        ∨ Job.botAnswersJob n ∈ send_next_question st cur) →
      n = cur + 1
        ∧ (∀ ld, lastDisplayedNumber st.questions = some ld → ld < n)
        ∧ (∀ q ∈ st.questions, q.number = n → q.displayed_at = none) := by
    intro st cur n hmem
    cases hlf : st.lockFree with
    | false => rw [send_next_question, hlf] at hmem; simp at hmem
    | true =>
      rw [send_next_question, hlf] at hmem
      cases hr : st.round with
      | none => rw [hr] at hmem; simp at hmem
      | some rd =>
        rw [hr] at hmem
        by_cases hrs : rd.status = RoundStatus.in_progress
        case neg => simp [hrs] at hmem
        by_cases hgs : st.gameStatus = some GameStatus.in_progress
        case neg => simp [hrs, hgs] at hmem
        cases hf : st.questions.find? (fun q => q.number == cur) with
        | none => simp [hrs, hgs, hf] at hmem
        | some cq =>
          have heq : (if (!true) = true then []
              else match some rd with
              | none => []
              | some rd =>
                if rd.status ≠ RoundStatus.in_progress then []
                else if st.gameStatus ≠ some GameStatus.in_progress then []
                else match st.questions.find? (fun q => q.number == cur) with
                | none => []
                | some _ =>
                  match lastDisplayedNumber st.questions with
                  | some ld =>
                    if cur + 1 ≤ ld then []
                    else snqAdvance st rd (cur + 1)
                  | none => snqAdvance st rd (cur + 1))
              = (match lastDisplayedNumber st.questions with
                | some ld =>
                  if cur + 1 ≤ ld then []
                  else snqAdvance st rd (cur + 1)
                | none => snqAdvance st rd (cur + 1) : List Job) := by
            simp [hrs, hgs, hf]
          rw [heq] at hmem
          cases hld : lastDisplayedNumber st.questions with
          | none =>
            rw [hld] at hmem
            have hmem2 : Job.broadcastJob n ∈ snqAdvance st rd (cur + 1)
                ∨ Job.botAnswersJob n ∈ snqAdvance st rd (cur + 1) := hmem
            have hn := snqAdvance_mem st rd (cur + 1) n hmem2
            subst hn
            refine ⟨rfl, ?_, ?_⟩
            · intro ld h
              simp at h
            · intro q hq hqn
              cases hqd : q.displayed_at with
              | none => rfl
              | some t =>
                exfalso
                rcases lastDisplayed_ge st.questions q hq (by simp [hqd])
                  with ⟨m, hm, _⟩
                rw [hld] at hm
                exact Option.noConfusion hm
          | some ld0 =>
            rw [hld] at hmem
            by_cases hle : cur + 1 ≤ ld0
            · simp [hle] at hmem
            · simp only [hle, if_false] at hmem
              have hmem2 : Job.broadcastJob n ∈ snqAdvance st rd (cur + 1)
                  ∨ Job.botAnswersJob n ∈ snqAdvance st rd (cur + 1) := hmem
              have hn := snqAdvance_mem st rd (cur + 1) n hmem2
              subst hn
              refine ⟨rfl, ?_, ?_⟩
              · intro ld h
                injection h with h
                omega
              · intro q hq hqn
                cases hqd : q.displayed_at with
                | none => rfl
                | some t =>
                  exfalso
                  rcases lastDisplayed_ge st.questions q hq (by simp [hqd])
                    with ⟨m, hm, hle2⟩
                  rw [hld] at hm
                  injection hm with hm
                  omega
  refine ⟨?_, ?_, ?_⟩
  · intro st cur ld hld hle
    cases hlf : st.lockFree with
    | false => rw [send_next_question, hlf]; rfl
    | true =>
      rw [send_next_question, hlf]
      cases hr : st.round with
      | none => rfl
      | some rd =>
        by_cases hrs : rd.status = RoundStatus.in_progress
        case neg => simp [hrs]
        by_cases hgs : st.gameStatus = some GameStatus.in_progress
        case neg => simp [hrs, hgs]
        cases hf : st.questions.find? (fun q => q.number == cur) with
        | none => simp [hrs, hgs, hf]
        | some cq => simp [hrs, hgs, hf, hld, hle]
  · intro st cur n hmem
    exact hpath st cur n (Or.inl hmem)
  · intro st cur n hmem
    exact (hpath st cur n (Or.inr hmem)).1

/-- Witness state for C4: questions 1 and 2 both displayed, a stale job
for current question 1 arrives. -/
def snqWitnessState : SNQState where
  lockFree := true
  round := some ⟨1, RoundStatus.in_progress⟩
  gameStatus := some GameStatus.in_progress
  questions := [⟨1, some 10⟩, ⟨2, some 20⟩]

/-- Witness for C4: with the high-water mark at 2 and current question 1,
the stale job enqueues nothing. -/
theorem send_next_question_guard_witness :
    send_next_question snqWitnessState 1 = [] :=
  send_next_question_guard.1 snqWitnessState 1 2 (by decide) (by decide)

/-
TRACE MODEL OF THE PROGRESSION PIPELINE FOR ONE ROUND

A small-step model of the job pipeline driving one in-progress round:
the state holds the displayed_at slot of each question-instance (index i
is question i + 1), a monotone clock supplying timestamps, and the queue
of pending jobs.  One step either delivers (executes) a pending job or —
modelling the at-least-once delivery substrate of spec sections 1 and 5 —
duplicates a pending job.  Executing a job follows the source:
send_question_to_players has NO displayed_at precondition and its
delivery path writes displayed_at unconditionally
(src/bot/game_notifications.py lines 221-234), then schedules the
bot-answer job and the collection job (src/tasks/question_sender.py
lines 53-112); collect_answers exits when the next instance is already
displayed and otherwise schedules send_next_question
(src/tasks/question_sender.py lines 232-259); send_next_question is the
function embedded above, run with the round and game active and the
row lock free — jobs execute one at a time here, so lock contention
never arises.
-/

/-- State of the one-round trace model. -/
structure SysState where
  displayed : List (Option ℕ)
  clock : ℕ
  pending : List Job
deriving DecidableEq, Repr

/-- Displayed_at of question number q (1-based), none outside the round. -/
def displayedOf (s : SysState) (q : ℕ) : Option ℕ :=
  if q = 0 then none else s.displayed.getD (q - 1) none

/-- The RoundQuestion rows that the scheduler queries, derived from the
displayed slots. -/
def sysQuestions (s : SysState) : List QuestionRec :=
  (List.range s.displayed.length).map (fun i => ⟨i + 1, s.displayed.getD i none⟩)

/-- View of the trace state as the state send_next_question reads:
round and game in progress, row lock free. -/
def snqStateOf (s : SysState) : SNQState where
  lockFree := true
  round := some ⟨1, RoundStatus.in_progress⟩
  gameStatus := some GameStatus.in_progress
  questions := sysQuestions s

/-- Execute one job against the trace state.  The executed job has
already been removed from the queue; the clock advances every step. -/
def execJob (s : SysState) : Job → SysState
  | Job.broadcastJob q =>
    if 1 ≤ q ∧ q ≤ s.displayed.length then
      { displayed := s.displayed.set (q - 1) (some s.clock)
        clock := s.clock + 1
        pending := s.pending ++ [Job.botAnswersJob q, Job.collectJob q] }
    else { s with clock := s.clock + 1 }
  | Job.collectJob q =>
    if (displayedOf s (q + 1)).isSome then { s with clock := s.clock + 1 }
    else { s with clock := s.clock + 1, pending := s.pending ++ [Job.snqJob q] }
  | Job.snqJob cur =>
    { s with clock := s.clock + 1
             pending := s.pending ++ send_next_question (snqStateOf s) cur }
  | _ => { s with clock := s.clock + 1 }

/-- One step of the queue substrate: deliver the pending job at an index,
or duplicate it (at-least-once delivery). -/
inductive QStep where
  | deliver (i : ℕ)
  | duplicate (i : ℕ)
deriving DecidableEq, Repr

/-- Run one queue step. -/
def runStep (s : SysState) : QStep → SysState
  | QStep.duplicate i =>
    match s.pending.get? i with
    | some j => { s with pending := s.pending ++ [j] }
    | none => s
  | QStep.deliver i =>
    match s.pending.get? i with
    | some j => execJob { s with pending := s.pending.eraseIdx i } j
    | none => s

/-- Run a whole trace. -/
def runTrace (s : SysState) (steps : List QStep) : SysState :=
  steps.foldl runStep s

/-- Initial state of a two-question round: nothing displayed, the
broadcast of question 1 pending. -/
def sysInit : SysState where
  displayed := [none, none]
  clock := 0
  pending := [Job.broadcastJob 1]

/-- The displayed_at timestamps are strictly increasing in question
number (per spec section 8, first testable property). -/
def displayedStrictMono (s : SysState) : Bool :=
  (List.range s.displayed.length).all (fun i =>
    (List.range s.displayed.length).all (fun j =>
      if i < j then
        match s.displayed.getD i none, s.displayed.getD j none with
        | some ti, some tj => decide (ti < tj)
        | _, _ => true
      else true))

/-- Five steps: the queue duplicates the broadcast of question 1; the
original broadcast runs, collection runs, send_next_question runs (its
guard passes, the high-water mark being 1), and the broadcast of
question 2 runs. -/
def cexPrefixTrace : List QStep :=
  [QStep.duplicate 0, QStep.deliver 0, QStep.deliver 2,
   QStep.deliver 2, QStep.deliver 2]

/-- The full trace: afterwards the duplicated broadcast of question 1 is
delivered. -/
def cexTrace : List QStep := cexPrefixTrace ++ [QStep.deliver 0]

/-- Counterexample to the system-wide consequence claimed in C4.  After
the five prefix steps both instances are displayed — the high-water mark
is 2 — yet a duplicated broadcast job for instance 1 is still pending;
delivering it re-broadcasts instance 1 (a number at or below the
high-water mark) and overwrites its displayed_at with a later timestamp,
leaving displayed_at = [4, 3]: the timestamps are NOT strictly
increasing in question_number.  The guard inside send_next_question
(proved in the amended theorem) cannot prevent this because
send_question_to_players itself has no displayed_at precondition and
writes displayed_at unconditionally on delivery. -/
theorem question_progression_counterexample :
    lastDisplayedNumber (sysQuestions (runTrace sysInit cexPrefixTrace)) = some 2
    ∧ (runTrace sysInit cexPrefixTrace).pending.get? 0 = some (Job.broadcastJob 1)
    ∧ (runTrace sysInit cexTrace).displayed = [some 4, some 3]
    ∧ displayedStrictMono (runTrace sysInit cexTrace) = false := by
  refine ⟨by decide, by decide, by decide, by decide⟩

/-
COLLECT ANSWERS (src/tasks/question_sender.py lines 130-259)
-/

/-- One GamePlayer row as collect_answers reads and mutates it. -/
structure CAPlayer where
  user_id : ℕ
  is_bot : Bool
  is_eliminated : Bool
  left_game : Bool
  total_time : ℚ
deriving DecidableEq, Repr

/-- One Answer row of the round; question_number stands for the
round_question_id of the instance inside its round. -/
structure CAAnswer where
  question_number : ℕ
  user_id : ℕ
  is_correct : Bool
  answer_time : ℚ
deriving DecidableEq, Repr

/-- State read and written by collect_answers: presence of the Round row,
the Game row and its status, presence of the referenced question-bank
row, the GamePlayer rows, the RoundQuestion rows and the Answer rows. -/
structure CAState where
  roundExists : Bool
  gameStatus : Option GameStatus
  questionBankOk : Bool
  players : List CAPlayer
  questions : List QuestionRec
  answers : List CAAnswer
deriving DecidableEq, Repr

/-- Existing-answer check for one competitor on one question-instance
(src/tasks/question_sender.py lines 175-178). -/
def hasAnswerFor (st : CAState) (q uid : ℕ) : Bool :=
  st.answers.any (fun a => a.question_number == q && a.user_id == uid)

/-- Eligibility of a competitor for a timeout backfill: alive, still in
the game, not a bot, and without an existing Answer
(src/tasks/question_sender.py lines 162-180). -/
def needsTimeoutAnswer (st : CAState) (q : ℕ) (gp : CAPlayer) : Bool :=
  !gp.is_eliminated && !gp.left_game && !gp.is_bot && !(hasAnswerFor st q gp.user_id)

/-- collect_answers (src/tasks/question_sender.py lines 130-259) as a
function from read state to (committed state, enqueued jobs).  Early
exits: missing Round, missing Game, missing RoundQuestion, missing
question-bank row.  Note the Game STATUS is never consulted — only row
existence.  Each eligible competitor without an Answer receives an
incorrect timeout Answer at the full time limit and has total_time
incremented; this is committed.  Then, if the next question-instance
exists and is already displayed the job returns with nothing enqueued
(the duplicate guard of lines 240-246), otherwise send_next_question is
enqueued.  Timeout notifications touch no persistent state and are
omitted. -/
def collect_answers (st : CAState) (q : ℕ) (timeLimit : ℚ) :
    CAState × List Job :=
  if !st.roundExists then (st, [])
  else match st.gameStatus with
  | none => (st, [])
  | some _ =>
    match st.questions.find? (fun qu => qu.number == q) with
    | none => (st, [])
    | some _ =>
      if !st.questionBankOk then (st, [])
      else
        let newAnswers := (st.players.filter (needsTimeoutAnswer st q)).map
          (fun gp => CAAnswer.mk q gp.user_id false timeLimit)
        let players2 := st.players.map (fun gp =>
          if needsTimeoutAnswer st q gp
          then { gp with total_time := gp.total_time + timeLimit } else gp)
        let st2 := { st with answers := st.answers ++ newAnswers
                             players := players2 }
        match st.questions.find? (fun qu => qu.number == q + 1) with
        | some nq => if nq.displayed_at.isSome then (st2, []) else (st2, [Job.snqJob q])
        | none => (st2, [Job.snqJob q])

/-- Claim C5.  Replaying collect_answers on an already-collected
question-instance — every eligible competitor already holds an Answer —
changes nothing: no new Answer rows, no player mutation, the state comes
back identical.  And whenever the next question-instance already has
displayed_at set, the replay enqueues no follow-up job at all. -/
theorem collect_answers_idempotent :
    (∀ (st : CAState) (q : ℕ) (tl : ℚ),
        (∀ gp ∈ st.players,
            (!gp.is_eliminated && !gp.left_game && !gp.is_bot) = true →
            hasAnswerFor st q gp.user_id = true) →
        (collect_answers st q tl).1 = st)
    ∧ (∀ (st : CAState) (q : ℕ) (tl : ℚ) (nq : QuestionRec),
        st.questions.find? (fun qu => qu.number == q + 1) = some nq →
        nq.displayed_at.isSome = true →
        (collect_answers st q tl).2 = []) := by
  constructor
  · intro st q tl hcollected
    obtain ⟨re, gs, qb, pl, qs, ans⟩ := st
    have hpred : ∀ gp ∈ pl, needsTimeoutAnswer ⟨re, gs, qb, pl, qs, ans⟩ q gp = false := by
      intro gp hgp
      unfold needsTimeoutAnswer
      cases he : gp.is_eliminated with
      | true => simp
      | false =>
        cases hl : gp.left_game with
        | true => simp
        | false =>
          cases hb : gp.is_bot with
          | true => simp
          | false =>
            have := hcollected gp hgp (by simp [he, hl, hb])
            simp [this]
    have hfilter : pl.filter (needsTimeoutAnswer ⟨re, gs, qb, pl, qs, ans⟩ q) = [] :=
      List.filter_eq_nil_iff.mpr (fun gp hgp => by simp [hpred gp hgp])
    have hmap : pl.map (fun gp =>
        if needsTimeoutAnswer ⟨re, gs, qb, pl, qs, ans⟩ q gp
        then { gp with total_time := gp.total_time + tl } else gp)
        = pl := by
      have := List.map_congr_left (l := pl)
        (f := fun gp => if needsTimeoutAnswer ⟨re, gs, qb, pl, qs, ans⟩ q gp
          then { gp with total_time := gp.total_time + tl } else gp)
        (g := fun gp => gp)
        (fun gp hgp => by simp [hpred gp hgp])
      simpa using this
    cases re with
    | false => simp [collect_answers]
    | true =>
      cases gs with
      | none => simp [collect_answers]
      | some g =>
        cases hf : qs.find? (fun qu => qu.number == q) with
        | none => simp [collect_answers, hf]
        | some cq =>
          cases qb with
          | false => simp [collect_answers, hf]
          | true =>
            cases hfn : qs.find? (fun qu => qu.number == q + 1) with
            | none => simp [collect_answers, hf, hfn, hfilter, hmap]
            | some nq =>
              by_cases hds : nq.displayed_at.isSome = true
              · simp [collect_answers, hf, hfn, hds, hfilter, hmap]
              · simp [collect_answers, hf, hfn, hds, hfilter, hmap]
  · intro st q tl nq hfn hds
    obtain ⟨re, gs, qb, pl, qs, ans⟩ := st
    cases re with
    | false => simp [collect_answers]
    | true =>
      cases gs with
      | none => simp [collect_answers]
      | some g =>
        cases hf : qs.find? (fun qu => qu.number == q) with
        | none => simp [collect_answers, hf]
        | some cq =>
          cases qb with
          | false => simp [collect_answers, hf]
          | true => simp [collect_answers, hf, hfn, hds]

/-- Witness state for C5: a single eligible competitor who already has an
Answer for question 1, with question 2 already displayed. -/
def collectedState : CAState where
  roundExists := true
  gameStatus := some GameStatus.in_progress
  questionBankOk := true
  players := [⟨7, false, false, false, 3⟩]
  questions := [⟨1, some 5⟩, ⟨2, some 9⟩]
  answers := [⟨1, 7, true, 3⟩]

/-- Witness for C5: the replay returns the state unchanged and enqueues
nothing. -/
theorem collect_answers_idempotent_witness :
    (collect_answers collectedState 1 10).1 = collectedState
    ∧ (collect_answers collectedState 1 10).2 = [] :=
  ⟨collect_answers_idempotent.1 collectedState 1 10 (by decide),
   collect_answers_idempotent.2 collectedState 1 10 ⟨2, some 9⟩
     (by decide) (by decide)⟩

/-- Counterexample to claim C7.  collect_answers checks only that the
Game ROW exists, never its status (src/tasks/question_sender.py lines
144-146), so on a cancelled game with an eligible unanswered competitor
it still creates a timeout Answer, mutates the total_time of the competitor
and enqueues the follow-up send_next_question job. -/
def cancelledCollectState : CAState where
  roundExists := true
  gameStatus := some GameStatus.cancelled
  questionBankOk := true
  players := [⟨7, false, false, false, 0⟩]
  questions := [⟨1, some 5⟩, ⟨2, none⟩]
  answers := []

/-- Closed counterexample for C7: the cancelled game suffers a state
change and a follow-up enqueue. -/
theorem cancelled_game_counterexample :
    cancelledCollectState.gameStatus = some GameStatus.cancelled
    ∧ (collect_answers cancelledCollectState 1 10).1.answers
        = [⟨1, 7, false, 10⟩]
    ∧ (collect_answers cancelledCollectState 1 10).1.players
        = [⟨7, false, false, false, 10⟩]
    ∧ (collect_answers cancelledCollectState 1 10).2 = [Job.snqJob 1] := by
  refine ⟨rfl, by decide, ?_, by decide⟩
  have hp : (collect_answers cancelledCollectState 1 10).1.players
      = [⟨7, false, false, false, (0 : ℚ) + 10⟩] := rfl
  rw [hp]
  norm_num

/-
FINISH ROUND (src/game/engine.py lines 270-364 and
src/tasks/game_tasks.py lines 69-166) and
START NEXT ROUND (src/tasks/game_tasks.py lines 169-219)
-/

/-- One GamePlayer row as the round-finishing path reads and writes it. -/
structure FRPlayer where
  user_id : ℕ
  is_eliminated : Bool
  eliminated_round : Option ℕ
deriving DecidableEq, Repr

/-- One Round row: number, status, tie-break flag and parent link
(src/database/queries.py lines 237-265). -/
structure FRRound where
  roundNumber : ℕ
  status : RoundStatus
  is_tie_break : Bool
  parent_round_id : Option ℕ
deriving DecidableEq, Repr

/-- One Answer row of the game as finish_round reads it; roundNumber
stands for round_id and question_number for round_question_id. -/
structure FRAnswer where
  roundNumber : ℕ
  question_number : ℕ
  user_id : ℕ
  is_correct : Bool
  answer_time : ℚ
deriving DecidableEq, Repr

/-- State read and written by the round-finishing tasks.  The rating and
final_place updates of finish_game touch only fields outside this model
and are noted in finish_game below. -/
structure FRState where
  gameStatus : Option GameStatus
  currentRound : Option ℕ
  isFinalStage : Bool
  players : List FRPlayer
  rounds : List FRRound
  answers : List FRAnswer
  totalQuestionsInRound : ℕ
  roundsPerGame : ℕ
deriving DecidableEq, Repr

/-- View of the finish-round state as the state check_early_victory
reads for the round being finished. -/
def evStateOf (st : FRState) (rn : ℕ) : EVState where
  players := st.players.map (fun gp => ⟨gp.user_id, gp.is_eliminated⟩)
  answers := (st.answers.filter (fun a => a.roundNumber == rn)).map
    (fun a => ⟨a.user_id, a.question_number, a.is_correct⟩)
  totalQuestions := st.totalQuestionsInRound
  roundNumber := rn
  roundsPerGame := st.roundsPerGame

/-- GameEngine.finish_game (src/game/engine.py lines 467-527) restricted
to the fields of this model: status becomes finished, and is_final_stage
is set when current_round equals ROUNDS_PER_GAME.  The final_place and
rating writes concern fields outside FRState. -/
def finish_game (st : FRState) : FRState :=
  match st.gameStatus with
  | none => st
  | some _ =>
    { st with gameStatus := some GameStatus.finished
              isFinalStage :=
                if st.currentRound = some st.roundsPerGame then true
                else st.isFinalStage }

/-- Python next over the alive players with matching user id: mark the
FIRST non-eliminated player with that id as eliminated in the given
round (src/game/engine.py lines 346-353).  User ids are positive in the
store, so Python truthiness of the id plays no role. -/
def markEliminated : List FRPlayer → ℕ → ℕ → List FRPlayer
  | [], _, _ => []
  | gp :: rest, uid, rn =>
    if !gp.is_eliminated && gp.user_id == uid
    then { gp with is_eliminated := true, eliminated_round := some rn } :: rest
    else gp :: markEliminated rest uid rn

/-- Mark the first Round row with the given number finished
(src/game/engine.py lines 355-357; the query takes the first match). -/
def markRoundFinished : List FRRound → ℕ → List FRRound
  | [], _ => []
  | r :: rest, rn =>
    if r.roundNumber == rn then { r with status := RoundStatus.finished } :: rest
    else r :: markRoundFinished rest rn

/-- Per-competitor round results as finish_round collects them
(src/game/engine.py lines 308-334): answers of the round and user,
count of the correct ones, sum of the times. -/
def roundResultsOf (st : FRState) (rn : ℕ) : List PlayerRoundResult :=
  (st.players.filter (fun gp => !gp.is_eliminated)).map (fun gp =>
    ⟨gp.user_id,
     ((st.answers.filter (fun a => a.roundNumber == rn && a.user_id == gp.user_id)).filter
        (fun a => a.is_correct)).length,
     ((st.answers.filter (fun a => a.roundNumber == rn && a.user_id == gp.user_id)).map
        (fun a => a.answer_time)).foldl (fun x y => x + y) 0⟩)

/-- GameEngine.finish_round (src/game/engine.py lines 270-364).  Returns
the committed state and the Python return value: none for missing
game/round or early victory, some (-1) as the tie-break sentinel
(line 343), some uid for an elimination.  On the tie-break sentinel the
function returns BEFORE any mutation, so the state is unchanged.  The
early-victory special case for two alive players in the final round
calls check_early_victory and, on a winner, finish_game. -/
def finish_round (st : FRState) (rn : ℕ) : FRState × Option ℤ :=
  match st.gameStatus with
  | none => (st, none)
  | some _ =>
    if !(st.rounds.any (fun r => r.roundNumber == rn)) then (st, none)
    else
      let alive := st.players.filter (fun gp => !gp.is_eliminated)
      match (if alive.length == 2 && rn == st.roundsPerGame
          then check_early_victory (evStateOf st rn) else none) with
      | some _ => (finish_game st, none)
      | none =>
        match determine_eliminated_player (roundResultsOf st rn) with
        | (_, true) => (st, some (-1))
        | (elim, false) =>
          let players2 := match elim with
            | some uid => markEliminated st.players uid rn
            | none => st.players
          ({ st with players := players2
                     rounds := markRoundFinished st.rounds rn
                     isFinalStage :=
                       if alive.length == 2 && rn == st.roundsPerGame then true
                       else st.isFinalStage },
           elim.map (fun uid => (uid : ℤ)))

/-- finish_round_task (src/tasks/game_tasks.py lines 69-166): guards on a
missing game, a cancelled or finished game, a missing round and a game
already past this round; then engine.finish_round; then — whatever
finish_round returned, the tie-break sentinel included — current_round
is set and either finish_game_task or start_next_round_task is enqueued.
The result-notification sends touch no persistent state. -/
def finish_round_task (st : FRState) (rn : ℕ) : FRState × List Job :=
  match st.gameStatus with
  | none => (st, [])
  | some gs =>
    if gs == GameStatus.cancelled || gs == GameStatus.finished then (st, [])
    else if !(st.rounds.any (fun r => r.roundNumber == rn)) then (st, [])
    else if (match st.currentRound with
        | some cr => decide (rn < cr)
        | none => false) then (st, [])
    else
      let st1 := (finish_round st rn).1
      match st1.gameStatus with
      | none => (st1, [])
      | some _ =>
        let st2 := { st1 with currentRound := some rn }
        let aliveCount := (st2.players.filter (fun gp => !gp.is_eliminated)).length
        if aliveCount ≤ 1 then (st2, [Job.finishGameJob])
        else if rn < st2.roundsPerGame then (st2, [Job.startNextRoundJob (rn + 1)])
        else (st2, [Job.finishGameJob])

/-- start_next_round_task (src/tasks/game_tasks.py lines 169-219): only
the existence of the game row is checked; engine._create_round adds the Round
row with the DEFAULT arguments of RoundQueries.create_round
(src/database/queries.py lines 237-265), so is_tie_break is False and
parent_round_id is None; when no questions are available the round
creation fails after the row insert and the task returns with nothing
enqueued (the commit-on-exit session still persists the insert);
otherwise the round is set in progress, current_round is updated and the
broadcast of question 1 is enqueued. -/
def start_next_round_task (st : FRState) (rn : ℕ) (questionsAvailable : Bool) :
    FRState × List Job :=
  match st.gameStatus with
  | none => (st, [])
  | some _ =>
    if !questionsAvailable then
      ({ st with rounds := st.rounds ++ [⟨rn, RoundStatus.not_started, false, none⟩] }, [])
    else
      ({ st with rounds := st.rounds ++ [⟨rn, RoundStatus.in_progress, false, none⟩]
                 currentRound := some rn },
       [Job.broadcastJob 1])

/-- Claim C7, amended, positive part: send_next_question and
finish_round_task do check the game status and no-op — no state change,
no enqueue — once the game is cancelled.  (collect_answers does not; see
cancelled_game_counterexample.) -/
theorem cancelled_game_guard :
    (∀ (st : SNQState) (cur : ℕ),
        st.gameStatus = some GameStatus.cancelled →
        send_next_question st cur = [])
    ∧ (∀ (st : FRState) (rn : ℕ),
        st.gameStatus = some GameStatus.cancelled →
        finish_round_task st rn = (st, [])) := by
  constructor
  · intro st cur hgs
    cases hlf : st.lockFree with
    | false => rw [send_next_question, hlf]; rfl
    | true =>
      rw [send_next_question, hlf]
      cases hr : st.round with
      | none => rfl
      | some rd =>
        by_cases hrs : rd.status = RoundStatus.in_progress
        · simp [hrs, hgs]
        · simp [hrs]
  · intro st rn hgs
    simp [finish_round_task, hgs]

/-- Witness for C7 (amended): a cancelled game where both guarded tasks
no-op. -/
theorem cancelled_game_guard_witness :
    send_next_question
        { lockFree := true
          round := some ⟨1, RoundStatus.in_progress⟩
          gameStatus := some GameStatus.cancelled
          questions := [⟨1, some 3⟩, ⟨2, none⟩] } 1 = []
    ∧ finish_round_task
        { gameStatus := some GameStatus.cancelled
          currentRound := some 1
          isFinalStage := false
          players := [⟨1, false, none⟩]
          rounds := [⟨1, RoundStatus.in_progress, false, none⟩]
          answers := []
          totalQuestionsInRound := 2
          roundsPerGame := 9 } 1
      = ({ gameStatus := some GameStatus.cancelled
           currentRound := some 1
           isFinalStage := false
           players := [⟨1, false, none⟩]
           rounds := [⟨1, RoundStatus.in_progress, false, none⟩]
           answers := []
           totalQuestionsInRound := 2
           roundsPerGame := 9 }, []) :=
  ⟨cancelled_game_guard.1 _ 1 rfl, cancelled_game_guard.2 _ 1 rfl⟩

/-- A game state in which the round that just completed ends with every
alive competitor on the same correct count and the same total time, so
elimination requires a tie-break: three alive players, each with one
correct answer and total time 10 in round 1. -/
def tieSt : FRState where
  gameStatus := some GameStatus.in_progress
  currentRound := some 1
  isFinalStage := false
  players := [⟨1, false, none⟩, ⟨2, false, none⟩, ⟨3, false, none⟩]
  rounds := [⟨1, RoundStatus.in_progress, false, none⟩]
  answers := [⟨1, 1, 1, true, 5⟩, ⟨1, 2, 1, false, 5⟩,
    ⟨1, 1, 2, true, 5⟩, ⟨1, 2, 2, false, 5⟩,
    ⟨1, 1, 3, true, 5⟩, ⟨1, 2, 3, false, 5⟩]
  totalQuestionsInRound := 2
  roundsPerGame := 9

/-- Claim C9, evaluated at the failing input.  The elimination logic
demands a tie-break (sentinel -1 from finish_round, with no mutation),
but finish_round_task has no handling for the sentinel: it updates
current_round and schedules the next NORMAL round — the Round table
still holds only round 1, nobody is eliminated, and the round that
start_next_round_task then creates has is_tie_break False and no
parent_round_id.  No child Round referencing the parent is ever created
and the broadcast pipeline is never re-entered for one. -/
theorem tie_break_round_never_created :
    determine_eliminated_player (roundResultsOf tieSt 1) = (none, true)
    ∧ finish_round tieSt 1 = (tieSt, some (-1))
    ∧ finish_round_task tieSt 1 = (tieSt, [Job.startNextRoundJob 2])
    ∧ (finish_round_task tieSt 1).1.rounds
        = [⟨1, RoundStatus.in_progress, false, none⟩]
    ∧ (finish_round_task tieSt 1).1.players
        = [⟨1, false, none⟩, ⟨2, false, none⟩, ⟨3, false, none⟩]
    ∧ (start_next_round_task tieSt 2 true).1.rounds
        = [⟨1, RoundStatus.in_progress, false, none⟩,
           ⟨2, RoundStatus.in_progress, false, none⟩] := by
  have hres : roundResultsOf tieSt 1
      = [⟨1, 1, (0 : ℚ) + 5 + 5⟩, ⟨2, 1, (0 : ℚ) + 5 + 5⟩,
         ⟨3, 1, (0 : ℚ) + 5 + 5⟩] := rfl
  have h10 : (0 : ℚ) + 5 + 5 = 10 := by norm_num
  have hres2 : roundResultsOf tieSt 1 = [⟨1, 1, 10⟩, ⟨2, 1, 10⟩, ⟨3, 1, 10⟩] := by
    rw [hres, h10]
  have hdet : determine_eliminated_player (roundResultsOf tieSt 1) = (none, true) := by
    rw [hres2]; decide
  have hfr : finish_round tieSt 1 = (tieSt, some (-1)) := by
    simp +decide [finish_round, hdet]
  have htask : finish_round_task tieSt 1 = (tieSt, [Job.startNextRoundJob 2]) := by
    simp +decide [finish_round_task, hfr]
  refine ⟨hdet, hfr, htask, ?_, ?_, by decide⟩
  · rw [htask]
    rfl
  · rw [htask]
    rfl

/-
START GAME (src/game/engine.py lines 25-55 and 121-182, with the
commit-on-normal-exit session of src/database/session.py lines 31-42)
-/

/-- The Game row fields start_game writes. -/
structure SGGame where
  status : GameStatus
  currentRound : Option ℕ
  startedAt : Option ℕ
deriving DecidableEq, Repr

/-- State read and written by start_game: the Game row, the Round rows,
the question instances of round 1 and the available unused approved
question count. -/
structure SGState where
  game : Option SGGame
  rounds : List FRRound
  roundQuestionNumbers : List ℕ
  availableQuestions : ℕ
  questionsPerRound : ℕ
deriving DecidableEq, Repr

/-- GameEngine.start_game (src/game/engine.py lines 25-55).  The status
precondition is checked FIRST and a failed check returns False with
nothing mutated.  On a passing check the game row is set to in_progress
with current_round 1 and started_at now BEFORE the round is built
(lines 43-47).  _create_round first inserts the Round row
(src/database/queries.py lines 250-262) and only then selects questions;
with none available it returns None and start_game returns False — but
the function returns normally, so the session context manager of
src/database/session.py lines 31-42 COMMITS everything already mutated:
the in_progress status, current_round, started_at and the empty Round
row all persist.  With questions available the instances are numbered
1..min(available, QUESTIONS_PER_ROUND) and True is returned after the
explicit commit. -/
def start_game (st : SGState) (now : ℕ) : Bool × SGState :=
  match st.game with
  | none => (false, st)
  | some g =>
    if !(g.status == GameStatus.waiting || g.status == GameStatus.pre_start)
    then (false, st)
    else
      let st1 := { st with
        game := some ⟨GameStatus.in_progress, some 1, some now⟩
        rounds := st.rounds ++ [⟨1, RoundStatus.not_started, false, none⟩] }
      if st.availableQuestions == 0 then (false, st1)
      else
        let nums := (List.range (min st.availableQuestions st.questionsPerRound)).map
          (fun i => i + 1)
        (true, { st1 with roundQuestionNumbers := nums })

/-- A waiting game with no available questions: start_game will fail
after mutating the row. -/
def sgNoQuestionsState : SGState where
  game := some ⟨GameStatus.waiting, none, none⟩
  rounds := []
  roundQuestionNumbers := []
  availableQuestions := 0
  questionsPerRound := 10

/-- An already-cancelled game: the status precondition fails up front. -/
def sgBadStatusState : SGState where
  game := some ⟨GameStatus.cancelled, none, none⟩
  rounds := []
  roundQuestionNumbers := []
  availableQuestions := 5
  questionsPerRound := 10

/-- Claim C8, evaluated at the failing input.  When the status
precondition fails the Game row is indeed untouched; but when round
creation fails because no questions are available, start_game returns
False with the Game row already switched to in_progress,
current_round 1 and started_at set — and the commit-on-normal-exit
session persists that partial effect, together with an empty Round row. -/
theorem start_game_partial_effect :
    start_game sgBadStatusState 100 = (false, sgBadStatusState)
    ∧ (start_game sgNoQuestionsState 100).1 = false
    ∧ (start_game sgNoQuestionsState 100).2.game
        = some ⟨GameStatus.in_progress, some 1, some 100⟩
    ∧ (start_game sgNoQuestionsState 100).2.rounds
        = [⟨1, RoundStatus.not_started, false, none⟩]
    ∧ sgNoQuestionsState.game = some ⟨GameStatus.waiting, none, none⟩ := by
  refine ⟨by decide, by decide, by decide, by decide, by decide⟩

/-
BROADCAST SCHEDULING (src/tasks/question_sender.py lines 18-127)
-/

/-- Scheduling decisions of send_question_to_players
(src/tasks/question_sender.py lines 18-127) once delivery has been
attempted at wall-clock time now, as (job, absolute execution time)
pairs.  The bot-answer job is enqueued with countdown 1 before the
confirmation check (lines 53-58).  rq is the re-read RoundQuestion row:
none when the row is missing (fallback of lines 100-103, which computes
a delay but then schedules no collection because question_was_sent stays
False), some none when displayed_at is still unset (the job reschedules
itself with countdown 5 and schedules no collection, lines 87-99), and
some (some d) when displayed_at = d is confirmed — then collect_answers
is scheduled with countdown
max(int(max(0, limit - (now - d))) + 3, limit + 3) seconds (lines
78-112); Python int() truncation on a non-negative value is the floor. -/
def broadcastSchedule (q : ℕ) (rq : Option (Option ℚ)) (now : ℚ)
    (timeLimit : ℕ) : List (Job × ℚ) :=
  (Job.botAnswersJob q, now + 1) ::
  match rq with
  | none => []
  | some none => [(Job.broadcastJob q, now + 5)]
  | some (some d) =>
    let remaining := max 0 ((timeLimit : ℚ) - (now - d))
    let delay : ℤ := max (⌊remaining⌋ + 3) ((timeLimit : ℤ) + 3)
    [(Job.collectJob q, now + (delay : ℚ))]

/-- Counterexample to claim C6.  With time limit 10 and displayed_at 0,
a broadcast confirming at wall-clock 0 schedules collection at absolute
time 13 — not at displayed_at + limit = 10 — and a delayed broadcast
confirming the same persisted displayed_at at wall-clock 7 schedules it
at 20: the deadline is not the claimed function of the persisted
timestamp, and two retries of the same broadcast get different
deadlines. -/
theorem collect_schedule_counterexample :
    broadcastSchedule 1 (some (some 0)) 0 10
      = [(Job.botAnswersJob 1, 0 + 1), (Job.collectJob 1, 13)]
    ∧ broadcastSchedule 1 (some (some 0)) 7 10
      = [(Job.botAnswersJob 1, 7 + 1), (Job.collectJob 1, 20)]
    ∧ ((0 : ℚ) + 10 < 13 ∧ (13 : ℚ) < 20) := by
  refine ⟨?_, ?_, by norm_num⟩
  · have h : broadcastSchedule 1 (some (some 0)) 0 10
        = [(Job.botAnswersJob 1, 0 + 1),
           (Job.collectJob 1, 0 + ((max (⌊max 0 ((10 : ℚ) - (0 - 0))⌋ + 3)
             ((10 : ℤ) + 3) : ℤ) : ℚ))] := rfl
    rw [h]
    norm_num
  · have h : broadcastSchedule 1 (some (some 0)) 7 10
        = [(Job.botAnswersJob 1, 7 + 1),
           (Job.collectJob 1, 7 + ((max (⌊max 0 ((10 : ℚ) - (7 - 0))⌋ + 3)
             ((10 : ℤ) + 3) : ℤ) : ℚ))] := rfl
    rw [h]
    norm_num

/-- Claim C6, amended.  Whenever the broadcast confirms displayed_at = d
at wall-clock now with d at most now, the clamped delay always comes out
as limit + 3, so collection is scheduled at now + limit + 3: an absolute
deadline anchored to the enqueue wall-clock (plus the fixed buffer), not
to the persisted timestamp; the bot-answer job runs at now + 1. -/
theorem collect_schedule_amended :
    ∀ (q : ℕ) (d now : ℚ) (timeLimit : ℕ), d ≤ now →
      broadcastSchedule q (some (some d)) now timeLimit
        = [(Job.botAnswersJob q, now + 1),
           (Job.collectJob q, now + ((timeLimit : ℚ) + 3))] := by
  intro q d now L hdn
  have hrem : max 0 ((L : ℚ) - (now - d)) ≤ (L : ℚ) := by
    have h1 : (L : ℚ) - (now - d) ≤ (L : ℚ) := by linarith
    have h0 : (0 : ℚ) ≤ (L : ℚ) := by positivity
    exact max_le h0 h1
  have hfloor : ⌊max 0 ((L : ℚ) - (now - d))⌋ ≤ (L : ℤ) := by
    have := Int.floor_le_floor hrem
    simpa using this
  have hdelay : max (⌊max 0 ((L : ℚ) - (now - d))⌋ + 3) ((L : ℤ) + 3)
      = (L : ℤ) + 3 := max_eq_right (by omega)
  simp only [broadcastSchedule, hdelay]
  norm_num

/-- Witness for C6 (amended): time limit 10, displayed_at 2, wall-clock
6 — collection goes to absolute time 19 = 6 + 10 + 3. -/
theorem collect_schedule_amended_witness :
    broadcastSchedule 3 (some (some 2)) 6 10
      = [(Job.botAnswersJob 3, 6 + 1), (Job.collectJob 3, 6 + ((10 : ℚ) + 3))] :=
  collect_schedule_amended 3 2 6 10 (by norm_num)
